import Mathlib

/-!
Verification of the feature-applicator component of the openstf
feature-engineering stage (`openstf/feature_engineering/feature_applicator.py`).

The data model is a shallow embedding of the pandas structures actually used by
the code: a `DataFrame` is a list of timestamp-indexed rows whose cells hold
numeric-or-missing values (`Option ℚ`, `Option.none` playing the role of NaN),
together with a column list.  The external feature-computation collaborator
`apply_features` is treated as a black box: the applicators are parameterised
over a function of its type, and theorems assume only its documented contract
(same row index as the input, plus extra columns).
-/

namespace OpenSTF

/-- One row of a data table: a timestamp index and named cells.
A cell value of `Option.none` models a missing value (NaN). -/
structure Row where
  idx : Nat
  cells : List (String × Option ℚ)
deriving DecidableEq

/-- First-match lookup in an association list of cells. -/
def lookupCell : List (String × Option ℚ) → String → Option ℚ
  | [], _ => Option.none
  | (c', v) :: rest, c => if c' = c then v else lookupCell rest c

/-- Read a cell of a row; a column absent from the row reads as missing,
matching how pandas fills NaN for columns a row does not carry. -/
def Row.getCell (r : Row) (c : String) : Option ℚ :=
  lookupCell r.cells c

/-- Overwrite (or insert) the cell for column `c`. -/
def setCellList : List (String × Option ℚ) → String → Option ℚ → List (String × Option ℚ)
  | [], c, v => [(c, v)]
  | (c', v') :: rest, c, v =>
    if c' = c then (c, v) :: rest else (c', v') :: setCellList rest c v

/-- Set a cell of a row. -/
def Row.setCell (r : Row) (c : String) (v : Option ℚ) : Row :=
  { r with cells := setCellList r.cells c v }

/-- A data table: named columns and timestamp-indexed rows. -/
structure DataFrame where
  cols : List String
  rows : List Row
deriving DecidableEq

/-- The empty table, `pd.DataFrame()`. -/
def emptyDF : DataFrame := ⟨[], []⟩

/-- Add a column name to a column list if not already present. -/
def addCol (cols : List String) (c : String) : List String :=
  if c ∈ cols then cols else cols ++ [c]

/-- `df[c] = v`: assign the scalar `v` to column `c` on every row. -/
def setColumn (df : DataFrame) (c : String) (v : ℚ) : DataFrame :=
  { cols := addCol df.cols c,
    rows := df.rows.map (fun r => r.setCell c (Option.some v)) }

/-- `a.append(b)`: rows concatenated, column sets unioned. -/
def appendDF (a b : DataFrame) : DataFrame :=
  { cols := a.cols ++ b.cols.filter (fun c => decide (c ∉ a.cols)),
    rows := a.rows ++ b.rows }

/-- Comparison of rows by timestamp index, the order used by `sort_index`. -/
def rowLE (a b : Row) : Prop := a.idx ≤ b.idx

instance : DecidableRel rowLE := fun a b => inferInstanceAs (Decidable (a.idx ≤ b.idx))

instance : IsTotal Row rowLE := ⟨fun a b => Nat.le_total a.idx b.idx⟩

instance : IsTrans Row rowLE := ⟨fun _ _ _ h h' => Nat.le_trans h h'⟩

/-- `df.sort_index()`: reorder the rows ascending by timestamp index. -/
def sortIndex (df : DataFrame) : DataFrame :=
  { df with rows := df.rows.insertionSort rowLE }

/-- The type of the external `apply_features` collaborator:
`apply_features(df, feature_names, horizon)`. -/
def Collab : Type := DataFrame → Option (List String) → ℚ → DataFrame

/-- The module constant `LATENCY_CONFIG = {"APX": 24}`. -/
def LATENCY_CONFIG : List (String × ℚ) := [("APX", 24)]

/-- The configuration held by a feature applicator: `self.horizons` (a Python
attribute that is either a list or `None`) and `self.feature_names`. -/
structure FeatureApplicator where
  horizons : Option (List ℚ)
  feature_names : Option (List String)
deriving DecidableEq

/-- The Python value supplied for the `horizons` constructor argument:
a list, `None`, or some other (non-list, non-None) value such as a number. -/
inductive PyValue where
  | pyList (hs : List ℚ)
  | pyNone
  | pyNum (x : ℚ)
deriving DecidableEq

/-- Embeds `AbstractFeatureApplicator.__init__`.  The guard in the source is
`if type(horizons) is not list and not None:` — in Python `not None` is the
constant `True`, so the conjunction reduces to `type(horizons) is not list`
and the constructor raises for every non-list argument, `None` included. -/
def initApplicator (horizons : PyValue) (fns : Option (List String)) :
    Except String FeatureApplicator :=
  match horizons with
  | PyValue.pyList hs => Except.ok ⟨Option.some hs, fns⟩
  | _ => Except.error "Horizons must be added as a list"

/-- The source literal `0.25` as a rational in normalized form (the scientific
literal `(0.25 : ℚ)` elaborates to `Rat.ofScientific`, which the kernel cannot
evaluate; `quarterHorizon_eq` below proves the two are the same value). -/
def quarterHorizon : ℚ := Rat.mk' 1 4 (by decide) (by decide)

theorem quarterHorizon_eq : quarterHorizon = 0.25 := by
  rw [quarterHorizon, Rat.mk'_eq_divInt, Rat.divInt_eq_div]
  norm_num

/-- The horizon list `TrainFeatureApplicator.add_features` actually iterates
over: `self.horizons`, after `if self.horizons is None: self.horizons = [0.25, 24]`. -/
def effectiveHorizons (s : FeatureApplicator) : List ℚ :=
  match s.horizons with
  | Option.none => [quarterHorizon, 24]
  | Option.some hs => hs

/-- One iteration body of the training loop:
`res = apply_features(df, feature_names=self.feature_names, horizon=horizon)`
followed by `res["Horizon"] = horizon`. -/
def trainBlock (F : Collab) (df : DataFrame) (fns : Option (List String))
    (h : ℚ) : DataFrame :=
  setColumn (F df fns h) "Horizon" h

/-- The training loop `for horizon in self.horizons: ... result = result.append(res)`. -/
def trainLoop (F : Collab) (df : DataFrame) (fns : Option (List String)) :
    List ℚ → DataFrame → DataFrame
  | [], acc => acc
  | h :: rest, acc => trainLoop F df fns rest (appendDF acc (trainBlock F df fns h))

/-- One latency pass applied to one row: the row's `feature` cell is set to NaN
when the row's `Horizon` cell strictly exceeds the threshold
(`result.loc[result["Horizon"] > time, feature] = np.nan`); a NaN `Horizon`
compares false and leaves the row untouched. -/
def latencyStepRow (p : String × ℚ) (r : Row) : Row :=
  match r.getCell "Horizon" with
  | Option.some v => if p.2 < v then r.setCell p.1 Option.none else r
  | Option.none => r

/-- One latency pass applied to the whole table; `.loc` assignment creates the
feature column when absent. -/
def applyPass (p : String × ℚ) (df : DataFrame) : DataFrame :=
  { cols := addCol df.cols p.1,
    rows := df.rows.map (latencyStepRow p) }

/-- The latency-invalidation loop `for feature, time in latency_config.items():`.
Each pass evaluates `result["Horizon"]`, which raises a `KeyError` when the
accumulated result has no `Horizon` column (as happens for an empty horizon
list, where `result` is still the empty `pd.DataFrame()`). -/
def applyLatency : List (String × ℚ) → DataFrame → Except String DataFrame
  | [], df => Except.ok df
  | p :: rest, df =>
    if "Horizon" ∈ df.cols then applyLatency rest (applyPass p df)
    else Except.error "KeyError: Horizon"

/-- Embeds `TrainFeatureApplicator.add_features(df, latency_config)`.  Returns
the applicator state after the call (the method mutates `self.horizons` when it
was `None`) together with the resulting table or the raised error. -/
def trainAddFeatures (s : FeatureApplicator) (F : Collab) (df : DataFrame)
    (latency_config : List (String × ℚ)) :
    FeatureApplicator × Except String DataFrame :=
  ({ s with horizons := Option.some (effectiveHorizons s) },
   (applyLatency latency_config
      (trainLoop F df s.feature_names (effectiveHorizons s) emptyDF)).map sortIndex)

/-- Modelled from the spec: `add_missing_feature_columns` from
`openstf.feature_engineering.general` is not part of the provided sources.
Per the spec it "adds absent requested columns, missing-valued": every column
in the requested feature-name list but absent from the table is appended and
filled with missing values; when no feature list is supplied there is nothing
to reconcile. -/
def add_missing_feature_columns (df : DataFrame) (fns : Option (List String)) :
    DataFrame :=
  match fns with
  | Option.none => df
  | Option.some names =>
    let missing := names.filter (fun c => decide (c ∉ df.cols))
    { cols := df.cols ++ missing,
      rows := df.rows.map
        (fun r => missing.foldl (fun r c => r.setCell c Option.none) r) }

/-- Modelled from the spec: `remove_extra_feature_columns` from
`openstf.feature_engineering.general` is not part of the provided sources.
Per the spec it "drops columns not requested": every column of the table that
is not in the requested feature-name list is removed, together with its data;
when no feature list is supplied there is nothing to reconcile. -/
def remove_extra_feature_columns (df : DataFrame) (fns : Option (List String)) :
    DataFrame :=
  match fns with
  | Option.none => df
  | Option.some names =>
    { cols := df.cols.filter (fun c => decide (c ∈ names)),
      rows := df.rows.map
        (fun r => { r with cells := r.cells.filter (fun cv => decide (cv.1 ∈ names)) }) }

/-- Embeds `OperationalPredictFeatureApplicator.add_features`.  The raised
message is the literal source string `"Expected one horizon, got {num_horizons}"`:
the source forgot the `f` prefix, so `num_horizons` is never interpolated.
`self.horizons = None` would make `len(self.horizons)` itself raise. -/
def operationalAddFeatures (s : FeatureApplicator) (F : Collab)
    (df : DataFrame) : Except String DataFrame :=
  match s.horizons with
  | Option.none => Except.error "TypeError: object of type NoneType has no len()"
  | Option.some hs =>
    match hs with
    | [h] =>
      Except.ok
        (remove_extra_feature_columns
          (add_missing_feature_columns (F df s.feature_names h) s.feature_names)
          s.feature_names)
    | _ => Except.error "Expected one horizon, got \x7bnum_horizons\x7d"

/-- Embeds `BackTestPredictFeatureApplicator.add_features`.  Identical to the
operational variant except the collaborator call `apply_features(df,
horizon=self.horizons[0])` passes no feature-name filter. -/
def backtestAddFeatures (s : FeatureApplicator) (F : Collab)
    (df : DataFrame) : Except String DataFrame :=
  match s.horizons with
  | Option.none => Except.error "TypeError: object of type NoneType has no len()"
  | Option.some hs =>
    match hs with
    | [h] =>
      Except.ok
        (remove_extra_feature_columns
          (add_missing_feature_columns (F df Option.none h) s.feature_names)
          s.feature_names)
    | _ => Except.error "Expected one horizon, got \x7bnum_horizons\x7d"

/-- A concrete 10-row input table with timestamps 0..9 and an `APX` column
whose value on the row with timestamp `t` is `t + 1`. -/
def df10 : DataFrame :=
  ⟨["APX"],
   [⟨0, [("APX", Option.some 1)]⟩, ⟨1, [("APX", Option.some 2)]⟩,
    ⟨2, [("APX", Option.some 3)]⟩, ⟨3, [("APX", Option.some 4)]⟩,
    ⟨4, [("APX", Option.some 5)]⟩, ⟨5, [("APX", Option.some 6)]⟩,
    ⟨6, [("APX", Option.some 7)]⟩, ⟨7, [("APX", Option.some 8)]⟩,
    ⟨8, [("APX", Option.some 9)]⟩, ⟨9, [("APX", Option.some 10)]⟩]⟩

/-- The identity instance of the collaborator contract: it returns its input
table unchanged (same row index, zero additional columns). -/
def idCollab : Collab := fun d _ _ => d

/-- The table produced by the training applicator on `df10` with horizons
`[0.25, 24]`, the identity collaborator and the default latency config. -/
def latencyDemo : DataFrame :=
  match (trainAddFeatures ⟨Option.some [quarterHorizon, 24], Option.none⟩ idCollab df10
      LATENCY_CONFIG).2 with
  | Except.ok out => out
  | Except.error _ => emptyDF

theorem lookupCell_set_same (cs : List (String × Option ℚ)) (c : String)
    (v : Option ℚ) : lookupCell (setCellList cs c v) c = v := by
  induction cs with
  | nil => simp [setCellList, lookupCell]
  | cons hd tl ih =>
    obtain ⟨c', v'⟩ := hd
    by_cases hc : c' = c
    · simp [setCellList, lookupCell, hc]
    · simp [setCellList, lookupCell, hc, ih]

theorem lookupCell_set_other (cs : List (String × Option ℚ)) (c c' : String)
    (v : Option ℚ) (hne : c' ≠ c) :
    lookupCell (setCellList cs c v) c' = lookupCell cs c' := by
  have hcc' : c ≠ c' := fun h => hne h.symm
  induction cs with
  | nil => simp [setCellList, lookupCell, hcc']
  | cons hd tl ih =>
    obtain ⟨c'', v''⟩ := hd
    by_cases hc : c'' = c
    · subst hc
      simp [setCellList, lookupCell, hcc']
    · by_cases hc' : c'' = c'
      · simp [setCellList, lookupCell, hc, hc', hne]
      · simp [setCellList, lookupCell, hc, hc', ih]

theorem getCell_setCell_same (r : Row) (c : String) (v : Option ℚ) :
    (r.setCell c v).getCell c = v :=
  lookupCell_set_same r.cells c v

theorem getCell_setCell_other (r : Row) (c c' : String) (v : Option ℚ)
    (hne : c' ≠ c) : (r.setCell c v).getCell c' = r.getCell c' :=
  lookupCell_set_other r.cells c c' v hne

theorem idx_setCell (r : Row) (c : String) (v : Option ℚ) :
    (r.setCell c v).idx = r.idx := rfl

theorem mem_addCol_self (cols : List String) (c : String) : c ∈ addCol cols c := by
  unfold addCol
  by_cases h : c ∈ cols <;> simp [h]

theorem mem_addCol_of_mem (cols : List String) (c c' : String) (h : c' ∈ cols) :
    c' ∈ addCol cols c := by
  unfold addCol
  by_cases hc : c ∈ cols <;> simp [hc, h]

theorem mem_appendDF_cols (a b : DataFrame) (c : String) :
    c ∈ (appendDF a b).cols ↔ c ∈ a.cols ∨ c ∈ b.cols := by
  by_cases h : c ∈ a.cols <;> simp [appendDF, List.mem_filter, h]

theorem mem_appendDF_rows (a b : DataFrame) (r : Row) :
    r ∈ (appendDF a b).rows ↔ r ∈ a.rows ∨ r ∈ b.rows := by
  simp [appendDF]

theorem mem_setColumn_rows (df : DataFrame) (c : String) (v : ℚ) (r : Row) :
    r ∈ (setColumn df c v).rows ↔
      ∃ r₀ ∈ df.rows, r = r₀.setCell c (Option.some v) := by
  simp [setColumn, eq_comm]

theorem mem_setColumn_cols_self (df : DataFrame) (c : String) (v : ℚ) :
    c ∈ (setColumn df c v).cols :=
  mem_addCol_self df.cols c

theorem sortIndex_rows_mem (df : DataFrame) (r : Row) :
    r ∈ (sortIndex df).rows ↔ r ∈ df.rows :=
  List.mem_insertionSort rowLE

theorem sortIndex_rows_length (df : DataFrame) :
    (sortIndex df).rows.length = df.rows.length :=
  List.length_insertionSort rowLE df.rows

theorem sortIndex_sorted (df : DataFrame) :
    List.Sorted rowLE (sortIndex df).rows :=
  List.sorted_insertionSort rowLE df.rows

/-- A latency pass never revives a cell: every cell either keeps its value or
becomes missing. -/
theorem latencyStepRow_eq_or_none (p : String × ℚ) (r : Row) (c : String) :
    (latencyStepRow p r).getCell c = r.getCell c ∨
      (latencyStepRow p r).getCell c = Option.none := by
  unfold latencyStepRow
  cases hH : r.getCell "Horizon" with
  | none => exact Or.inl rfl
  | some v =>
    by_cases hv : p.2 < v
    · by_cases hc : c = p.1
      · subst hc
        exact Or.inr (by simp [hv, getCell_setCell_same])
      · exact Or.inl (by simp [hv, getCell_setCell_other _ _ _ _ hc])
    · exact Or.inl (by simp [hv])

theorem latencyStepRow_none (p : String × ℚ) (r : Row) (c : String)
    (h : r.getCell c = Option.none) :
    (latencyStepRow p r).getCell c = Option.none := by
  rcases latencyStepRow_eq_or_none p r c with heq | heq
  · rw [heq, h]
  · exact heq

theorem latencyStepRow_horizon_some (p : String × ℚ) (r : Row) (v : ℚ)
    (h : (latencyStepRow p r).getCell "Horizon" = Option.some v) :
    r.getCell "Horizon" = Option.some v := by
  rcases latencyStepRow_eq_or_none p r "Horizon" with heq | heq
  · rw [← heq, h]
  · rw [heq] at h
    exact absurd h (by simp)

theorem latencyStepRow_nulls (p : String × ℚ) (r : Row) (v : ℚ)
    (hH : r.getCell "Horizon" = Option.some v) (hv : p.2 < v) :
    (latencyStepRow p r).getCell p.1 = Option.none := by
  unfold latencyStepRow
  rw [hH]
  simp [hv, getCell_setCell_same]

theorem latencyStepRow_other (p : String × ℚ) (r : Row) (c : String)
    (hne : c ≠ p.1) : (latencyStepRow p r).getCell c = r.getCell c := by
  unfold latencyStepRow
  cases hH : r.getCell "Horizon" with
  | none => rfl
  | some v =>
    by_cases hv : p.2 < v
    · simp [hv, getCell_setCell_other _ _ _ _ hne]
    · simp [hv]

theorem latencyStepRow_idx (p : String × ℚ) (r : Row) :
    (latencyStepRow p r).idx = r.idx := by
  unfold latencyStepRow
  cases r.getCell "Horizon" with
  | none => rfl
  | some v =>
    by_cases hv : p.2 < v <;> simp [hv, idx_setCell]

/-- The composite effect of the whole latency loop on one row. -/
def rowFold : List (String × ℚ) → Row → Row
  | [], r => r
  | p :: rest, r => rowFold rest (latencyStepRow p r)

theorem rowFold_none (cfg : List (String × ℚ)) (r : Row) (c : String)
    (h : r.getCell c = Option.none) :
    (rowFold cfg r).getCell c = Option.none := by
  induction cfg generalizing r with
  | nil => exact h
  | cons p rest ih => exact ih _ (latencyStepRow_none p r c h)

theorem rowFold_horizon_some (cfg : List (String × ℚ)) (r : Row) (v : ℚ)
    (h : (rowFold cfg r).getCell "Horizon" = Option.some v) :
    r.getCell "Horizon" = Option.some v := by
  induction cfg generalizing r with
  | nil => exact h
  | cons p rest ih => exact latencyStepRow_horizon_some p r v (ih _ h)

/-- Soundness of the latency loop at one row: if a `(feature, threshold)` pair
is in the config and the row's final `Horizon` cell strictly exceeds the
threshold, the row's final `feature` cell is missing. -/
theorem rowFold_nulls (cfg : List (String × ℚ)) (r : Row) (f : String) (T v : ℚ)
    (hmem : (f, T) ∈ cfg) (hH : (rowFold cfg r).getCell "Horizon" = Option.some v)
    (hv : T < v) : (rowFold cfg r).getCell f = Option.none := by
  induction cfg generalizing r with
  | nil => exact absurd hmem (List.not_mem_nil _)
  | cons p rest ih =>
    rcases List.mem_cons.mp hmem with hp | hp
    · subst hp
      have hHmid : (latencyStepRow (f, T) r).getCell "Horizon" = Option.some v :=
        rowFold_horizon_some rest _ v hH
      have hHr : r.getCell "Horizon" = Option.some v :=
        latencyStepRow_horizon_some _ r v hHmid
      exact rowFold_none rest _ f (latencyStepRow_nulls (f, T) r v hHr hv)
    · exact ih _ hp hH

theorem rowFold_other (cfg : List (String × ℚ)) (r : Row) (c : String)
    (hall : ∀ p ∈ cfg, p.1 ≠ c) :
    (rowFold cfg r).getCell c = r.getCell c := by
  induction cfg generalizing r with
  | nil => rfl
  | cons p rest ih =>
    have h1 : (latencyStepRow p r).getCell c = r.getCell c :=
      latencyStepRow_other p r c (fun h => (hall p (List.mem_cons_self p rest)) h.symm)
    rw [rowFold, ih _ (fun q hq => hall q (List.mem_cons_of_mem p hq)), h1]

theorem rowFold_idx (cfg : List (String × ℚ)) (r : Row) :
    (rowFold cfg r).idx = r.idx := by
  induction cfg generalizing r with
  | nil => rfl
  | cons p rest ih => rw [rowFold, ih, latencyStepRow_idx]

/-- When the latency loop succeeds, its output rows are exactly the input rows
with the composite per-row latency fold applied. -/
theorem applyLatency_ok_rows (cfg : List (String × ℚ)) (df out : DataFrame)
    (h : applyLatency cfg df = Except.ok out) :
    out.rows = df.rows.map (rowFold cfg) := by
  induction cfg generalizing df with
  | nil =>
    cases h
    simp [rowFold]
  | cons p rest ih =>
    unfold applyLatency at h
    by_cases hH : "Horizon" ∈ df.cols
    · rw [if_pos hH] at h
      rw [ih _ h]
      simp only [applyPass, List.map_map]
      exact List.map_congr_left (fun a _ => rfl)
    · rw [if_neg hH] at h
      cases h

/-- The latency loop succeeds whenever the `Horizon` column exists. -/
theorem applyLatency_ok_of_horizon (cfg : List (String × ℚ)) (df : DataFrame)
    (hH : "Horizon" ∈ df.cols) : ∃ out, applyLatency cfg df = Except.ok out := by
  induction cfg generalizing df with
  | nil => exact ⟨df, rfl⟩
  | cons p rest ih =>
    have hH' : "Horizon" ∈ (applyPass p df).cols := mem_addCol_of_mem _ _ _ hH
    obtain ⟨out, hout⟩ := ih (applyPass p df) hH'
    exact ⟨out, by rw [applyLatency, if_pos hH]; exact hout⟩

/-- Rows of the accumulated training result come either from the accumulator
or from one of the per-horizon blocks. -/
theorem trainLoop_rows_mem (F : Collab) (df : DataFrame)
    (fns : Option (List String)) (hs : List ℚ) (acc : DataFrame) (r : Row)
    (h : r ∈ (trainLoop F df fns hs acc).rows) :
    r ∈ acc.rows ∨ ∃ h' ∈ hs, r ∈ (trainBlock F df fns h').rows := by
  induction hs generalizing acc with
  | nil => exact Or.inl h
  | cons h0 rest ih =>
    rcases ih _ h with hacc | ⟨h', hh', hr⟩
    · rcases (mem_appendDF_rows _ _ _).mp hacc with hacc' | hblk
      · exact Or.inl hacc'
      · exact Or.inr ⟨h0, List.mem_cons_self _ _, hblk⟩
    · exact Or.inr ⟨h', List.mem_cons_of_mem _ hh', hr⟩

theorem trainLoop_length (F : Collab) (df : DataFrame)
    (fns : Option (List String)) (hs : List ℚ) (acc : DataFrame) (n : Nat)
    (hF : ∀ h, (F df fns h).rows.length = n) :
    (trainLoop F df fns hs acc).rows.length = acc.rows.length + hs.length * n := by
  induction hs generalizing acc with
  | nil => simp [trainLoop]
  | cons h0 rest ih =>
    rw [trainLoop, ih]
    have hblk : (trainBlock F df fns h0).rows.length = n := by
      simp [trainBlock, setColumn, hF h0]
    simp only [appendDF, List.length_append, hblk, List.length_cons]
    rw [Nat.succ_mul]
    omega

theorem trainLoop_cols_mono (F : Collab) (df : DataFrame)
    (fns : Option (List String)) (hs : List ℚ) (acc : DataFrame) (c : String)
    (h : c ∈ acc.cols) : c ∈ (trainLoop F df fns hs acc).cols := by
  induction hs generalizing acc with
  | nil => exact h
  | cons h0 rest ih =>
    exact ih _ ((mem_appendDF_cols _ _ _).mpr (Or.inl h))

/-- After at least one loop iteration the result carries a `Horizon` column. -/
theorem trainLoop_horizon_col (F : Collab) (df : DataFrame)
    (fns : Option (List String)) (hs : List ℚ) (acc : DataFrame)
    (hne : hs ≠ []) : "Horizon" ∈ (trainLoop F df fns hs acc).cols := by
  cases hs with
  | nil => exact absurd rfl hne
  | cons h0 rest =>
    exact trainLoop_cols_mono F df fns rest _ _
      ((mem_appendDF_cols _ _ _).mpr (Or.inr (mem_setColumn_cols_self _ _ _)))

theorem trainBlock_horizon_tag (F : Collab) (df : DataFrame)
    (fns : Option (List String)) (h : ℚ) (r : Row)
    (hr : r ∈ (trainBlock F df fns h).rows) :
    r.getCell "Horizon" = Option.some h := by
  obtain ⟨r₀, _, rfl⟩ := (mem_setColumn_rows _ _ _ _).mp hr
  exact getCell_setCell_same r₀ "Horizon" (Option.some h)

/-- C1: in the training variant's output, for every `(feature, threshold)` pair
of the latency config, the feature is missing (NaN) on every row whose
`Horizon` value strictly exceeds the threshold; and it is not necessarily
missing at horizons within the threshold — on the concrete run `latencyDemo`
(thresholds `{"APX": 24}`) a row with `Horizon = 0.25 ≤ 24` keeps its `APX`
value `1`. -/
theorem train_latency_invalidation (s : FeatureApplicator) (F : Collab)
    (df : DataFrame) (cfg : List (String × ℚ)) (feature : String) (T : ℚ)
    (out : DataFrame) (hmem : (feature, T) ∈ cfg)
    (hrun : (trainAddFeatures s F df cfg).2 = Except.ok out) :
    (∀ r ∈ out.rows, ∀ v, r.getCell "Horizon" = Option.some v → T < v →
      r.getCell feature = Option.none) ∧
    (∃ r ∈ latencyDemo.rows, r.getCell "Horizon" = Option.some 0.25 ∧
      (0.25 : ℚ) ≤ 24 ∧ r.getCell "APX" = Option.some 1) := by
  constructor
  · intro r hr v hH hv
    simp only [trainAddFeatures] at hrun
    cases hlat : applyLatency cfg
        (trainLoop F df s.feature_names (effectiveHorizons s) emptyDF) with
    | error e => rw [hlat] at hrun; cases hrun
    | ok mid =>
      rw [hlat] at hrun
      cases hrun
      have hrmid : r ∈ mid.rows := (sortIndex_rows_mem mid r).mp hr
      rw [applyLatency_ok_rows cfg _ mid hlat] at hrmid
      obtain ⟨r₀, _, rfl⟩ := List.mem_map.mp hrmid
      exact rowFold_nulls cfg r₀ feature T v hmem hH hv
  · rw [show (0.25 : ℚ) = quarterHorizon from quarterHorizon_eq.symm]
    decide

/-- Closed witness for `train_latency_invalidation` at the concrete demo run. -/
theorem train_latency_invalidation_witness :
    (∀ r ∈ latencyDemo.rows, ∀ v, r.getCell "Horizon" = Option.some v →
      (24 : ℚ) < v → r.getCell "APX" = Option.none) ∧
    (∃ r ∈ latencyDemo.rows, r.getCell "Horizon" = Option.some 0.25 ∧
      (0.25 : ℚ) ≤ 24 ∧ r.getCell "APX" = Option.some 1) :=
  train_latency_invalidation ⟨Option.some [quarterHorizon, 24], Option.none⟩
    idCollab df10 LATENCY_CONFIG "APX" 24 latencyDemo (by decide) rfl

/-- C7: the table returned by the training variant is sorted ascending by row
index (timestamp). -/
theorem train_sorted_by_index (s : FeatureApplicator) (F : Collab)
    (df : DataFrame) (cfg : List (String × ℚ)) (out : DataFrame)
    (hrun : (trainAddFeatures s F df cfg).2 = Except.ok out) :
    List.Sorted rowLE out.rows := by
  simp only [trainAddFeatures] at hrun
  cases hlat : applyLatency cfg
      (trainLoop F df s.feature_names (effectiveHorizons s) emptyDF) with
  | error e => rw [hlat] at hrun; cases hrun
  | ok mid =>
    rw [hlat] at hrun
    cases hrun
    exact sortIndex_sorted mid

/-- Closed witness for `train_sorted_by_index` at the concrete demo run. -/
theorem train_sorted_by_index_witness : List.Sorted rowLE latencyDemo.rows :=
  train_sorted_by_index ⟨Option.some [quarterHorizon, 24], Option.none⟩
    idCollab df10 LATENCY_CONFIG latencyDemo rfl

/-- C10: a training applicator whose configured horizon list is empty and a
non-empty latency config make `add_features` raise (the latency step reads the
`Horizon` column of the still-empty accumulated result) rather than return an
empty table. -/
theorem train_empty_horizons_error (s : FeatureApplicator) (F : Collab)
    (df : DataFrame) (cfg : List (String × ℚ))
    (hhs : s.horizons = Option.some []) (hcfg : cfg ≠ []) :
    (trainAddFeatures s F df cfg).2 = Except.error "KeyError: Horizon" := by
  cases cfg with
  | nil => exact absurd rfl hcfg
  | cons p rest =>
    simp [trainAddFeatures, effectiveHorizons, hhs, trainLoop, applyLatency,
      emptyDF, Except.map]

/-- Closed witness for `train_empty_horizons_error`. -/
theorem train_empty_horizons_error_witness :
    (trainAddFeatures ⟨Option.some [], Option.none⟩ idCollab df10
      LATENCY_CONFIG).2 = Except.error "KeyError: Horizon" :=
  train_empty_horizons_error ⟨Option.some [], Option.none⟩ idCollab df10
    LATENCY_CONFIG rfl (by decide)

/-- C5: when the training applicator's `horizons` attribute is `None`,
`add_features` behaves as if the horizons were the ordered list `[0.25, 24]`,
and it stores that default on the instance, where it persists across
subsequent calls. -/
theorem train_default_horizons (s : FeatureApplicator) (F : Collab)
    (df : DataFrame) (cfg : List (String × ℚ))
    (hnone : s.horizons = Option.none) :
    (trainAddFeatures s F df cfg).1.horizons = Option.some [0.25, 24] ∧
    (trainAddFeatures s F df cfg).2 =
      (trainAddFeatures ⟨Option.some [0.25, 24], s.feature_names⟩ F df cfg).2 ∧
    (trainAddFeatures (trainAddFeatures s F df cfg).1 F df cfg).1 =
      (trainAddFeatures s F df cfg).1 := by
  have heff : effectiveHorizons s = [quarterHorizon, 24] := by
    simp [effectiveHorizons, hnone]
  refine ⟨?_, ?_, ?_⟩
  · simp [trainAddFeatures, heff, quarterHorizon_eq]
  · simp [trainAddFeatures, effectiveHorizons, hnone, quarterHorizon_eq]
  · simp [trainAddFeatures, heff, effectiveHorizons]

/-- Closed witness for `train_default_horizons`. -/
theorem train_default_horizons_witness :
    (trainAddFeatures ⟨Option.none, Option.none⟩ idCollab df10
        LATENCY_CONFIG).1.horizons = Option.some [0.25, 24] ∧
    (trainAddFeatures ⟨Option.none, Option.none⟩ idCollab df10 LATENCY_CONFIG).2 =
      (trainAddFeatures ⟨Option.some [0.25, 24], Option.none⟩ idCollab df10
        LATENCY_CONFIG).2 ∧
    (trainAddFeatures (trainAddFeatures ⟨Option.none, Option.none⟩ idCollab df10
        LATENCY_CONFIG).1 idCollab df10 LATENCY_CONFIG).1 =
      (trainAddFeatures ⟨Option.none, Option.none⟩ idCollab df10
        LATENCY_CONFIG).1 :=
  train_default_horizons ⟨Option.none, Option.none⟩ idCollab df10
    LATENCY_CONFIG rfl

/-- C3 (code behavior): the constructor guard `type(horizons) is not list and
not None` rejects every non-list value, so a `None` horizons argument is
rejected exactly like a bare number, contrary to the documented intent that
`None` be accepted and defaulted later; lists are accepted. -/
theorem init_horizons_validation :
    initApplicator PyValue.pyNone Option.none =
      Except.error "Horizons must be added as a list" ∧
    initApplicator (PyValue.pyNum 24) Option.none =
      Except.error "Horizons must be added as a list" ∧
    ∀ (hs : List ℚ) (fns : Option (List String)),
      initApplicator (PyValue.pyList hs) fns =
        Except.ok ⟨Option.some hs, fns⟩ :=
  ⟨rfl, rfl, fun _ _ => rfl⟩

/-- C4 (code behavior): with a horizon count of 0 or 2 both single-horizon
variants raise, but the raised message is one and the same literal for every
count — the source string is missing the f-string prefix, so the actual count
is never interpolated into the message. -/
theorem predict_horizon_count_error :
    (∀ (F : Collab) (df : DataFrame) (fns : Option (List String)),
      operationalAddFeatures ⟨Option.some [], fns⟩ F df =
        Except.error "Expected one horizon, got \x7bnum_horizons\x7d" ∧
      operationalAddFeatures ⟨Option.some [1, 24], fns⟩ F df =
        Except.error "Expected one horizon, got \x7bnum_horizons\x7d" ∧
      backtestAddFeatures ⟨Option.some [], fns⟩ F df =
        Except.error "Expected one horizon, got \x7bnum_horizons\x7d" ∧
      backtestAddFeatures ⟨Option.some [1, 24], fns⟩ F df =
        Except.error "Expected one horizon, got \x7bnum_horizons\x7d") ∧
    "Expected one horizon, got \x7bnum_horizons\x7d" ≠
      "Expected one horizon, got 0" ∧
    "Expected one horizon, got \x7bnum_horizons\x7d" ≠
      "Expected one horizon, got 2" :=
  ⟨fun _ _ _ => ⟨rfl, rfl, rfl, rfl⟩, by decide, by decide⟩

/-- C6: for every non-empty configured horizon list, the training variant
returns a table whose row count is the number of horizons times the input row
count, each row tagged in its `Horizon` column with one of the configured
horizons, assuming the collaborator returns a table with the same row index as
its input. -/
theorem train_row_count (s : FeatureApplicator) (F : Collab) (df : DataFrame)
    (hs : List ℚ) (hhs : s.horizons = Option.some hs) (hne : hs ≠ [])
    (hF : ∀ h, (F df s.feature_names h).rows.map Row.idx = df.rows.map Row.idx) :
    ∃ out, (trainAddFeatures s F df LATENCY_CONFIG).2 = Except.ok out ∧
      out.rows.length = hs.length * df.rows.length ∧
      ∀ r ∈ out.rows, ∃ h ∈ hs, r.getCell "Horizon" = Option.some h := by
  have heff : effectiveHorizons s = hs := by simp [effectiveHorizons, hhs]
  have hlen : ∀ h, (F df s.feature_names h).rows.length = df.rows.length :=
    fun h => by simpa using congrArg List.length (hF h)
  have hHcol : "Horizon" ∈ (trainLoop F df s.feature_names hs emptyDF).cols :=
    trainLoop_horizon_col F df s.feature_names hs emptyDF hne
  obtain ⟨mid, hmid⟩ := applyLatency_ok_of_horizon LATENCY_CONFIG _ hHcol
  have hmidrows := applyLatency_ok_rows LATENCY_CONFIG _ mid hmid
  refine ⟨sortIndex mid, ?_, ?_, ?_⟩
  · simp only [trainAddFeatures, heff]
    rw [hmid]
    rfl
  · rw [sortIndex_rows_length, hmidrows, List.length_map]
    have := trainLoop_length F df s.feature_names hs emptyDF df.rows.length hlen
    simpa [emptyDF] using this
  · intro r hr
    have hrmid : r ∈ mid.rows := (sortIndex_rows_mem mid r).mp hr
    rw [hmidrows] at hrmid
    obtain ⟨r₀, hr₀, rfl⟩ := List.mem_map.mp hrmid
    rcases trainLoop_rows_mem F df s.feature_names hs emptyDF r₀ hr₀ with
      habs | ⟨h, hh, hblk⟩
    · exact absurd habs (by simp [emptyDF])
    · refine ⟨h, hh, ?_⟩
      have htag := trainBlock_horizon_tag F df s.feature_names h r₀ hblk
      rw [rowFold_other LATENCY_CONFIG r₀ "Horizon" (by decide), htag]

/-- Closed witness for `train_row_count`. -/
theorem train_row_count_witness :
    ∃ out, (trainAddFeatures ⟨Option.some [24], Option.none⟩ idCollab df10
        LATENCY_CONFIG).2 = Except.ok out ∧
      out.rows.length = [(24 : ℚ)].length * df10.rows.length ∧
      ∀ r ∈ out.rows, ∃ h ∈ [(24 : ℚ)], r.getCell "Horizon" = Option.some h :=
  train_row_count ⟨Option.some [24], Option.none⟩ idCollab df10 [24] rfl
    (by decide) (fun _ => rfl)

theorem forall₂_mem_right {α β : Type} {R : α → β → Prop} {l₁ : List α}
    {l₂ : List β} (h : List.Forall₂ R l₁ l₂) {b : β} (hb : b ∈ l₂) :
    ∃ a ∈ l₁, R a b := by
  induction h with
  | nil => cases hb
  | cons hR hrest ih =>
    rcases List.mem_cons.mp hb with rfl | hb'
    · exact ⟨_, List.mem_cons_self _ _, hR⟩
    · obtain ⟨a, ha, hA⟩ := ih hb'
      exact ⟨a, List.mem_cons_of_mem _ ha, hA⟩

theorem foldl_setCell_none_preserved (cs : List String) (r : Row) (c : String)
    (h : r.getCell c = Option.none) :
    (cs.foldl (fun r c => r.setCell c Option.none) r).getCell c = Option.none := by
  induction cs generalizing r with
  | nil => exact h
  | cons c₀ rest ih =>
    apply ih
    by_cases hc : c = c₀
    · subst hc
      exact getCell_setCell_same r c Option.none
    · rw [getCell_setCell_other r c₀ c Option.none hc]
      exact h

theorem foldl_setCell_none_mem (cs : List String) (r : Row) (c : String)
    (h : c ∈ cs) :
    (cs.foldl (fun r c => r.setCell c Option.none) r).getCell c = Option.none := by
  induction cs generalizing r with
  | nil => cases h
  | cons c₀ rest ih =>
    by_cases hc : c ∈ rest
    · exact ih _ hc
    · have hc₀ : c = c₀ := by
        rcases List.mem_cons.mp h with h' | h'
        · exact h'
        · exact absurd h' hc
      subst hc₀
      exact foldl_setCell_none_preserved rest _ c (getCell_setCell_same r c Option.none)

theorem lookupCell_filter (cells : List (String × Option ℚ))
    (q : String × Option ℚ → Bool) (c : String)
    (hq : ∀ v, q (c, v) = true) :
    lookupCell (cells.filter q) c = lookupCell cells c := by
  induction cells with
  | nil => rfl
  | cons hd tl ih =>
    obtain ⟨c', v'⟩ := hd
    by_cases hc : c' = c
    · subst hc
      rw [List.filter_cons, hq v']
      simp [lookupCell]
    · rw [List.filter_cons]
      cases hq' : q (c', v') with
      | true => simp [lookupCell, hc, ih]
      | false => simp [lookupCell, hc, ih]

/-- Column reconciliation (add missing, then remove extra) produces exactly
the requested column set. -/
theorem reconcile_cols (d : DataFrame) (names : List String) :
    (remove_extra_feature_columns
      (add_missing_feature_columns d (Option.some names))
      (Option.some names)).cols.toFinset = names.toFinset := by
  ext c
  simp only [remove_extra_feature_columns, add_missing_feature_columns,
    List.mem_toFinset, List.mem_filter, List.mem_append, decide_eq_true_eq]
  constructor
  · exact fun h => h.2
  · intro hc
    refine ⟨?_, hc⟩
    by_cases hd : c ∈ d.cols
    · exact Or.inl hd
    · exact Or.inr ⟨hc, hd⟩

/-- A requested column that the computed table did not provide reads as
missing on every row of the reconciled table. -/
theorem reconcile_missing (d : DataFrame) (names : List String) (c : String)
    (hc : c ∈ names) (hnotin : c ∉ d.cols) :
    ∀ r ∈ (remove_extra_feature_columns
      (add_missing_feature_columns d (Option.some names))
      (Option.some names)).rows, r.getCell c = Option.none := by
  intro r hr
  simp only [remove_extra_feature_columns, add_missing_feature_columns,
    List.mem_map] at hr
  obtain ⟨r₁, hr₁, rfl⟩ := hr
  obtain ⟨r₀, hr₀, rfl⟩ := hr₁
  have hmem : c ∈ names.filter (fun c => decide (c ∉ d.cols)) := by
    simp [List.mem_filter, hc, hnotin]
  have hinner := foldl_setCell_none_mem _ r₀ c hmem
  show lookupCell (List.filter _ _) c = Option.none
  rw [lookupCell_filter _ _ c (fun v => by simp [hc])]
  exact hinner

/-- C8: with a single configured horizon and a supplied feature-name list,
both single-horizon variants return a table whose column set is exactly the
requested set; a requested column the collaborator did not produce is present
and filled with missing values. -/
theorem predict_column_reconciliation (F : Collab) (df : DataFrame)
    (names : List String) (h : ℚ) :
    (∃ out, operationalAddFeatures ⟨Option.some [h], Option.some names⟩ F df =
        Except.ok out ∧
      out.cols.toFinset = names.toFinset ∧
      ∀ c ∈ names, c ∉ (F df (Option.some names) h).cols →
        ∀ r ∈ out.rows, r.getCell c = Option.none) ∧
    (∃ out, backtestAddFeatures ⟨Option.some [h], Option.some names⟩ F df =
        Except.ok out ∧
      out.cols.toFinset = names.toFinset ∧
      ∀ c ∈ names, c ∉ (F df Option.none h).cols →
        ∀ r ∈ out.rows, r.getCell c = Option.none) := by
  constructor
  · exact ⟨_, rfl, reconcile_cols _ names,
      fun c hc hnot => reconcile_missing _ names c hc hnot⟩
  · exact ⟨_, rfl, reconcile_cols _ names,
      fun c hc hnot => reconcile_missing _ names c hc hnot⟩

/-- Closed witness for `predict_column_reconciliation`. -/
theorem predict_column_reconciliation_witness :
    (∃ out, operationalAddFeatures ⟨Option.some [1], Option.some ["APX", "Load"]⟩
        idCollab df10 = Except.ok out ∧
      out.cols.toFinset = ["APX", "Load"].toFinset ∧
      ∀ c ∈ ["APX", "Load"], c ∉ (idCollab df10 (Option.some ["APX", "Load"]) 1).cols →
        ∀ r ∈ out.rows, r.getCell c = Option.none) ∧
    (∃ out, backtestAddFeatures ⟨Option.some [1], Option.some ["APX", "Load"]⟩
        idCollab df10 = Except.ok out ∧
      out.cols.toFinset = ["APX", "Load"].toFinset ∧
      ∀ c ∈ ["APX", "Load"], c ∉ (idCollab df10 Option.none 1).cols →
        ∀ r ∈ out.rows, r.getCell c = Option.none) :=
  predict_column_reconciliation idCollab df10 ["APX", "Load"] 1

/-- A collaborator that reacts to the feature-name filter: when a filter is
supplied it also fills an `X` column, when no filter is supplied it returns
the input unchanged. -/
def filterSensitiveCollab : Collab := fun d fns _ =>
  match fns with
  | Option.none => d
  | Option.some _ => setColumn d "X" 5

/-- A one-row, no-column input table for the collaborator-argument demos. -/
def oneRowDf : DataFrame := ⟨[], [⟨0, []⟩]⟩

/-- A single-horizon applicator state requesting only the feature `X`. -/
def oneHorizonState : FeatureApplicator := ⟨Option.some [1], Option.some ["X"]⟩

/-- C9: the backtest variant invokes the collaborator without the feature-name
filter — its output is unchanged under varying the collaborator's behaviour on
filtered calls — whereas the operational variant does pass the filter:
`filterSensitiveCollab` and `idCollab` agree on every unfiltered call yet give
different operational outputs. -/
theorem backtest_ignores_feature_filter (F G : Collab) (s : FeatureApplicator)
    (df : DataFrame) (hFG : ∀ d h, F d Option.none h = G d Option.none h) :
    backtestAddFeatures s F df = backtestAddFeatures s G df ∧
    (∀ d h, filterSensitiveCollab d Option.none h = idCollab d Option.none h) ∧
    operationalAddFeatures oneHorizonState filterSensitiveCollab oneRowDf ≠
      operationalAddFeatures oneHorizonState idCollab oneRowDf := by
  refine ⟨?_, fun d h => rfl, ?_⟩
  · cases hhs : s.horizons with
    | none => simp [backtestAddFeatures, hhs]
    | some hs =>
      match hs with
      | [] => simp [backtestAddFeatures, hhs]
      | [h] => simp [backtestAddFeatures, hhs, hFG df h]
      | h₁ :: h₂ :: t => simp [backtestAddFeatures, hhs]
  · intro hcontra
    have h1 : operationalAddFeatures oneHorizonState filterSensitiveCollab oneRowDf =
        Except.ok ⟨["X"], [⟨0, [("X", Option.some 5)]⟩]⟩ := rfl
    have h2 : operationalAddFeatures oneHorizonState idCollab oneRowDf =
        Except.ok ⟨["X"], [⟨0, [("X", Option.none)]⟩]⟩ := rfl
    rw [h1, h2] at hcontra
    exact absurd (Except.ok.inj hcontra) (by decide)

/-- Closed witness for `backtest_ignores_feature_filter`. -/
theorem backtest_ignores_feature_filter_witness :
    backtestAddFeatures oneHorizonState filterSensitiveCollab oneRowDf =
      backtestAddFeatures oneHorizonState idCollab oneRowDf ∧
    (∀ d h, filterSensitiveCollab d Option.none h = idCollab d Option.none h) ∧
    operationalAddFeatures oneHorizonState filterSensitiveCollab oneRowDf ≠
      operationalAddFeatures oneHorizonState idCollab oneRowDf :=
  backtest_ignores_feature_filter filterSensitiveCollab idCollab
    oneHorizonState oneRowDf (fun _ _ => rfl)

/-- C2 counterexample: on the scenario's concrete run (training applicator
with horizons `[0.25, 24]`, the 10-row table `df10`, latency config
`{"APX": 24}`, identity collaborator) there is a row tagged `Horizon = 24`
whose `APX` value is present, not missing: the latency mask uses a strict
comparison and `24 > 24` is false. -/
theorem train_scenario_counterexample :
    ∃ r ∈ latencyDemo.rows,
      r.getCell "Horizon" = Option.some 24 ∧ r.getCell "APX" = Option.some 1 := by
  decide

/-- C2 (amended): for a training applicator with horizons `[0.25, 24]`, the
10-row input `df10` and latency config `{"APX": 24}`, and any collaborator
meeting the contract (same row index, original `APX` values preserved), the
output has 20 rows, every row tagged `Horizon=24` retains its original `APX`
value (24 is not strictly greater than the threshold 24), every row tagged
`Horizon=0.25` retains its original `APX` value, and the output is sorted by
timestamp.  The original `APX` value of the `df10` row with timestamp `t` is
`t + 1`. -/
theorem train_scenario_amended (F : Collab)
    (hF : ∀ h : ℚ, List.Forall₂
      (fun a r => r.idx = a.idx ∧ r.getCell "APX" = a.getCell "APX")
      df10.rows (F df10 Option.none h).rows) :
    ∃ out, (trainAddFeatures ⟨Option.some [0.25, 24], Option.none⟩ F df10
        LATENCY_CONFIG).2 = Except.ok out ∧
      out.rows.length = 20 ∧
      (∀ r ∈ out.rows, r.getCell "Horizon" = Option.some 24 →
        r.getCell "APX" = Option.some ((r.idx : ℚ) + 1)) ∧
      (∀ r ∈ out.rows, r.getCell "Horizon" = Option.some 0.25 →
        r.getCell "APX" = Option.some ((r.idx : ℚ) + 1)) ∧
      List.Sorted rowLE out.rows := by
  have heff : effectiveHorizons ⟨Option.some [0.25, 24], Option.none⟩ =
      [0.25, 24] := rfl
  have hP : ∀ r ∈ (trainLoop F df10 Option.none [0.25, 24] emptyDF).rows,
      r.getCell "APX" = Option.some ((r.idx : ℚ) + 1) ∧
      (r.getCell "Horizon" = Option.some 0.25 ∨
        r.getCell "Horizon" = Option.some 24) := by
    intro r hr
    rcases trainLoop_rows_mem F df10 Option.none [0.25, 24] emptyDF r hr with
      habs | ⟨h, hh, hblk⟩
    · exact absurd habs (by simp [emptyDF])
    · obtain ⟨r₀, hr₀F, rfl⟩ := (mem_setColumn_rows _ _ _ _).mp hblk
      obtain ⟨a, ha, hidx, hapx⟩ := forall₂_mem_right (hF h) hr₀F
      have hAPX : r₀.getCell "APX" = Option.some ((r₀.idx : ℚ) + 1) := by
        simp only [df10, List.mem_cons, List.not_mem_nil, or_false] at ha
        rcases ha with rfl | rfl | rfl | rfl | rfl | rfl | rfl | rfl | rfl | rfl <;>
          · rw [hapx, hidx]
            norm_num [Row.getCell, lookupCell]
      constructor
      · rw [getCell_setCell_other _ _ _ _ (by decide), idx_setCell]
        exact hAPX
      · rw [getCell_setCell_same]
        rcases List.mem_cons.mp hh with rfl | hh'
        · exact Or.inl rfl
        · rcases List.mem_cons.mp hh' with rfl | habs
          · exact Or.inr rfl
          · exact absurd habs (List.not_mem_nil h)
  have hHcol : "Horizon" ∈
      (trainLoop F df10 Option.none [0.25, 24] emptyDF).cols :=
    trainLoop_horizon_col F df10 Option.none [0.25, 24] emptyDF (by simp)
  obtain ⟨mid, hmid⟩ := applyLatency_ok_of_horizon LATENCY_CONFIG _ hHcol
  have hmidrows := applyLatency_ok_rows LATENCY_CONFIG _ mid hmid
  have hfix : ∀ r ∈ (trainLoop F df10 Option.none [0.25, 24] emptyDF).rows,
      rowFold LATENCY_CONFIG r = r := by
    intro r hr
    rcases (hP r hr).2 with hH | hH <;>
      · show rowFold [("APX", 24)] r = r
        simp only [rowFold, latencyStepRow, hH]
        norm_num
  have hmidrows' : mid.rows = (trainLoop F df10 Option.none [0.25, 24] emptyDF).rows := by
    rw [hmidrows]
    exact List.map_congr_left hfix |>.trans (List.map_id _)
  have hlen : ∀ h, (F df10 Option.none h).rows.length = df10.rows.length :=
    fun h => ((hF h).length_eq).symm
  refine ⟨sortIndex mid, ?_, ?_, ?_, ?_, sortIndex_sorted mid⟩
  · simp only [trainAddFeatures, heff]
    rw [hmid]
    rfl
  · rw [sortIndex_rows_length, hmidrows']
    have := trainLoop_length F df10 Option.none [0.25, 24] emptyDF
      df10.rows.length hlen
    simp only [emptyDF] at this ⊢
    rw [this]
    rfl
  · intro r hr _
    have hr' : r ∈ (trainLoop F df10 Option.none [0.25, 24] emptyDF).rows := by
      rw [← hmidrows']
      exact (sortIndex_rows_mem mid r).mp hr
    exact (hP r hr').1
  · intro r hr _
    have hr' : r ∈ (trainLoop F df10 Option.none [0.25, 24] emptyDF).rows := by
      rw [← hmidrows']
      exact (sortIndex_rows_mem mid r).mp hr
    exact (hP r hr').1

/-- Closed witness for `train_scenario_amended`, instantiated with the
identity collaborator. -/
theorem train_scenario_amended_witness :
    ∃ out, (trainAddFeatures ⟨Option.some [0.25, 24], Option.none⟩ idCollab df10
        LATENCY_CONFIG).2 = Except.ok out ∧
      out.rows.length = 20 ∧
      (∀ r ∈ out.rows, r.getCell "Horizon" = Option.some 24 →
        r.getCell "APX" = Option.some ((r.idx : ℚ) + 1)) ∧
      (∀ r ∈ out.rows, r.getCell "Horizon" = Option.some 0.25 →
        r.getCell "APX" = Option.some ((r.idx : ℚ) + 1)) ∧
      List.Sorted rowLE out.rows :=
  train_scenario_amended idCollab
    (fun _ => List.forall₂_same.mpr (fun _ _ => ⟨rfl, rfl⟩))

end OpenSTF
